import Mathlib

/-!
Shallow embedding of `s3_content_type_fixer.py` (a one-file S3 content-type
repair utility) and proofs about it.

The Python program enumerates object keys of a bucket under a list of
prefixes, feeds them through a multiprocessing queue to `check_headers`
workers, and each worker compares the object's declared content type with
the one guessed from the key name, issuing a metadata-replacing
`copy_from` onto the same key when they disagree (unless the run is a dry
run).

Modelling conventions:
* Python strings are `String`.
* The boto3 metadata dictionary is an insertion-ordered association list
  `List (String × String)` with Python-dict lookup/assignment semantics
  (`dictLookup` / `dictSet`).
* The remote store is a map `String → Option ObjMeta` from key name to the
  object's metadata snapshot (`none` = no such object).
* The extension → media-type table of `mimetypes.guess_type` is treated as
  the spec treats it: a pluggable pure lookup `String → Option String`.
* Remote calls performed by one loop iteration of `check_headers` are
  recorded as an explicit `Effect` trace; lines printed to stdout/stderr
  are recorded as `Report` lists.
-/

/-- Snapshot of one S3 object's header data as read by the worker:
`key.content_type`, `key.content_disposition` and `key.metadata`. -/
structure ObjMeta where
  content_type : String
  content_disposition : Option String
  metadata : List (String × String)
deriving DecidableEq

/-- The print statements of `check_headers` (lines 50, 60, 65, 67-68 of
the source), with their payloads. -/
inductive Report where
  | couldNotLookup (key : String)
  | couldNotGuess (key : String)
  | matchesExpected (key : String)
  | mismatch (key : String) (current expected : String)
deriving DecidableEq

/-- Remote calls a worker issues for one key: the HEAD request triggered by
the first attribute access on the lazy `bucket.Object` handle, and the
`copy_from` call (bucket, key, copy source, metadata directive, metadata
map, new content type). -/
inductive Effect where
  | headObject (key : String)
  | copyFrom (bucket key copySource directive : String)
      (metadata : List (String × String)) (contentType : String)
deriving DecidableEq

/-- `Effect.isCopy e` holds exactly for the mutating `copy_from` call. -/
def Effect.isCopy : Effect → Bool
  | Effect.copyFrom _ _ _ _ _ _ => true
  | Effect.headObject _ => false

/-- Python `metadata[k]` / `k in metadata`: first (only) binding of `k`. -/
def dictLookup : List (String × String) → String → Option String
  | [], _ => none
  | (k', v') :: rest, k => if k' = k then some v' else dictLookup rest k

/-- Python `metadata[k] = v`: overwrite the binding of `k` in place if one
exists, otherwise append a new binding at the end. -/
def dictSet : List (String × String) → String → String → List (String × String)
  | [], k, v => [(k, v)]
  | (k', v') :: rest, k, v =>
      if k' = k then (k, v) :: rest else (k', v') :: dictSet rest k v

/-- Metadata adjustment of `check_headers` lines 70-78: overwrite an
existing "Content-Type" entry with the expected type, and restate the
content disposition under "Content-Disposition" when the object has one. -/
def adjustMetadata (metadata : List (String × String)) (expected : String)
    (cd : Option String) : List (String × String) :=
  let m1 := if (dictLookup metadata "Content-Type").isSome then
              dictSet metadata "Content-Type" expected
            else metadata
  match cd with
  | some d => dictSet m1 "Content-Disposition" d
  | none => m1

/-- Python `key.key.endswith('/')` (line 53): the key's last character is
the path separator. -/
def endsWithSlash (s : String) : Bool := s.data.getLast? = some '/'

/-- Truthiness of the `bucket.Object(key_name)` handle tested by
`if not key:` (line 49).  A boto3 resource object is constructed lazily,
performs no remote call, and defines neither `__bool__` nor `__len__`,
so it is always truthy regardless of whether the object exists. -/
def objectHandleTruthy (_key_name : String) : Bool := true

/-- Everything observable from one loop iteration of `check_headers` on a
dequeued key: printed stdout lines, printed stderr lines, remote calls, and
whether an uncaught exception escaped the loop body (killing the worker). -/
structure KeyResult where
  stdout : List Report
  stderr : List Report
  effects : List Effect
  crashed : Bool
deriving DecidableEq

/-- One loop iteration of `check_headers` (source lines 47-86) on the
dequeued `key_name`.  Mirrors the source order: the always-true handle
truthiness test, the directory skip, the HEAD triggered by reading
`key.content_type` (which raises uncaught if the object is gone), the
`mimetypes.guess_type` lookup, the compare, and the conditional
`copy_from`. -/
def check_headers_item (store : String → Option ObjMeta)
    (guess : String → Option String) (bucket : String)
    (verbose dryrun : Bool) (key_name : String) : KeyResult :=
  if objectHandleTruthy key_name = false then
    ⟨[], [Report.couldNotLookup key_name], [], false⟩
  else if endsWithSlash key_name then
    ⟨[], [], [], false⟩
  else
    match store key_name with
    | none =>
      ⟨[], [], [Effect.headObject key_name], true⟩
    | some obj =>
      match guess key_name with
      | none =>
        ⟨[], [Report.couldNotGuess key_name], [Effect.headObject key_name], false⟩
      | some expected =>
        if obj.content_type = expected then
          ⟨if verbose then [Report.matchesExpected key_name] else [], [],
           [Effect.headObject key_name], false⟩
        else if dryrun then
          ⟨[Report.mismatch key_name obj.content_type expected], [],
           [Effect.headObject key_name], false⟩
        else
          ⟨[Report.mismatch key_name obj.content_type expected], [],
           [Effect.headObject key_name,
            Effect.copyFrom bucket key_name (bucket ++ "/" ++ key_name)
              "REPLACE"
              (adjustMetadata obj.metadata expected obj.content_disposition)
              expected],
           false⟩

/-- Semantics on the store of one recorded remote call.  A HEAD request
does not change the store.  `copy_from` with `MetadataDirective="REPLACE"`
rewrites the destination object's headers from the request: the new
declared content type is the `ContentType` argument, the new user metadata
map is the `Metadata` argument, and the content disposition becomes unset
because the request does not restate a `ContentDisposition`. -/
def applyEffect (store : String → Option ObjMeta) :
    Effect → (String → Option ObjMeta)
  | Effect.headObject _ => store
  | Effect.copyFrom _ key _ _ md ct =>
      fun k' => if k' = key then some ⟨ct, none, md⟩ else store k'

/-- Fold a trace of remote calls over the store. -/
def runEffects (store : String → Option ObjMeta) (effects : List Effect) :
    String → Option ObjMeta :=
  effects.foldl applyEffect store

/-- The end-to-end effect on one object of the fix issued by
`check_headers` lines 70-86: the `copy_from` of the object onto itself
with the adjusted metadata and the expected content type, under the
REPLACE-directive semantics of `applyEffect`. -/
def applyFix (obj : ObjMeta) (expected : String) : ObjMeta :=
  ⟨expected, none, adjustMetadata obj.metadata expected obj.content_disposition⟩

/-! ### The worker loop over a sequence of dequeued keys -/

/-- Observable outcome of one worker draining a sequence of keys: the
printed lines, the full remote-call trace, whether the worker died on an
uncaught exception, and the store contents after its mutations. -/
structure RunResult where
  stdout : List Report
  stderr : List Report
  effects : List Effect
  crashed : Bool
  finalStore : String → Option ObjMeta

/-- The `while True` loop of `check_headers` run over the sequence of keys
a worker dequeues, threading the store through the issued remote calls.
An uncaught exception in one iteration ends the loop (the `try/except`
only wraps `queue.get`). -/
def check_headers (guess : String → Option String) (bucket : String)
    (verbose dryrun : Bool) :
    (String → Option ObjMeta) → List String → RunResult
  | store, [] => ⟨[], [], [], false, store⟩
  | store, k :: ks =>
    let r := check_headers_item store guess bucket verbose dryrun k
    let store' := runEffects store r.effects
    if r.crashed then ⟨r.stdout, r.stderr, r.effects, true, store'⟩
    else
      let rest := check_headers guess bucket verbose dryrun store' ks
      ⟨r.stdout ++ rest.stdout, r.stderr ++ rest.stderr,
       r.effects ++ rest.effects, rest.crashed, rest.finalStore⟩

/-! ### Candidate enumeration -/

/-- `find_matching_files` (source lines 15-20):
`set(key for prefix in prefixes for key in bucket.objects.filter(Prefix=prefix))`.
The bucket listing is modelled by the list `bucketKeys` of the keys the
bucket holds, in listing order; `objects.filter(Prefix=p)` yields the ones
starting with `p`, as `ObjectSummary` handles whose equality (and hence
the Python set's deduplication) is on the (bucket, key) identifier pair,
i.e. on the key string here.  The Python `set` is a `Finset String`. -/
def find_matching_files (bucketKeys : List String)
    (prefixes : List String) : Finset String :=
  (prefixes.flatMap fun p => bucketKeys.filter fun k => p.isPrefixOf k).toFinset

/-! ### The blocking dequeue -/

/-- `BLOCK_TIME = 60 * 60` (source line 13). -/
def BLOCK_TIME : Nat := 60 * 60

/-- Effective wait ceiling of `multiprocessing.Queue.get`, whose signature
is `get(block=True, timeout=None)`.  A blocking get waits up to `timeout`
seconds, where `timeout = none` means it can wait forever; a non-blocking
get returns (or raises) immediately.  Python truthiness of the integer
`block` argument is `block ≠ 0`. -/
def queueGetWaitCeiling (block : Nat) (timeout : Option Nat) : Option Nat :=
  if block ≠ 0 then timeout else some 0

/-- The call at source line 40 is `queue.get(BLOCK_TIME)`: `BLOCK_TIME` is
passed positionally, so it binds the `block` parameter, and `timeout`
keeps its default `None`. -/
def check_headers_wait_ceiling : Option Nat :=
  queueGetWaitCeiling BLOCK_TIME none

/-! ### The queue protocol of the worker pool

`main` (source lines 107-132) creates one shared queue, starts `W`
workers, puts every candidate key, then puts `W` `None` sentinels; each
worker loops `queue.get`, breaking on `None`.  The model below captures
exactly this protocol: the queue is drained from the front, each dequeue
is performed by exactly one worker, a worker that receives the sentinel
stops dequeuing.  Key processing itself (modelled above) does not touch
the queue, so it is abstracted to recording the dequeued key. -/

/-- Shared state of the coordinator/worker system: the remaining queue
contents, the set of workers that already consumed their sentinel, and
the keys dequeued so far (across all workers). -/
structure PoolState (W : Nat) where
  queue : List (Option String)
  doneSet : Finset (Fin W)
  processed : List String
deriving DecidableEq

/-- Queue contents after `main` lines 118-125: every candidate key in
order, then exactly `W` sentinels; no worker finished, nothing dequeued. -/
def poolInit (keys : List String) (W : Nat) : PoolState W :=
  ⟨keys.map some ++ List.replicate W none, ∅, []⟩

/-- One dequeue by worker `w`: a worker that already received its sentinel
does not touch the queue again; otherwise it removes the head of the
queue, stopping (joining `doneSet`) on a sentinel and recording a real
key. -/
def poolStep {W : Nat} (S : PoolState W) (w : Fin W) : PoolState W :=
  if w ∈ S.doneSet then S
  else
    match S.queue with
    | [] => S
    | none :: rest => ⟨rest, insert w S.doneSet, S.processed⟩
    | some k :: rest => ⟨rest, S.doneSet, k :: S.processed⟩

/-- Run a schedule: an arbitrary interleaving of dequeue attempts. -/
def poolRun {W : Nat} (s : List (Fin W)) (S : PoolState W) : PoolState W :=
  s.foldl poolStep S

/-- A state where no dequeue can happen any more: the queue is drained or
every worker has already stopped. -/
def poolTerminal {W : Nat} (S : PoolState W) : Prop :=
  S.queue = [] ∨ S.doneSet = Finset.univ

instance {W : Nat} (S : PoolState W) : Decidable (poolTerminal S) := by
  unfold poolTerminal; infer_instance

/-- Invariant tying a reachable pool state to the initially enqueued
keys: the pending sentinels match the workers still running, dequeued and
pending keys together are the enqueued keys, and the queue is a suffix of
the initial queue. -/
def poolInv (keys : List String) {W : Nat} (S : PoolState W) : Prop :=
  S.queue.count none + S.doneSet.card = W ∧
  (S.processed ++ S.queue.filterMap id).Perm keys ∧
  (∃ t, t ++ S.queue = keys.map some ++ List.replicate W none)

/-! ### Python-dict lemmas -/

theorem dictLookup_dictSet_self (m : List (String × String)) (k v : String) :
    dictLookup (dictSet m k v) k = some v := by
  induction m with
  | nil => simp [dictSet, dictLookup]
  | cons p rest ih =>
    obtain ⟨k', v'⟩ := p
    by_cases h : k' = k
    · simp [dictSet, dictLookup, h]
    · simp [dictSet, dictLookup, h, ih]

theorem dictLookup_dictSet_ne (m : List (String × String)) (k v k' : String)
    (h : k' ≠ k) : dictLookup (dictSet m k v) k' = dictLookup m k' := by
  induction m with
  | nil => simp [dictSet, dictLookup, Ne.symm h]
  | cons p rest ih =>
    obtain ⟨k₀, v₀⟩ := p
    by_cases h₀ : k₀ = k
    · subst h₀
      simp [dictSet, dictLookup, Ne.symm h]
    · simp [dictSet, dictLookup, h₀, ih]

theorem dictSet_lookup_eq (m : List (String × String)) (k v : String)
    (h : dictLookup m k = some v) : dictSet m k v = m := by
  induction m with
  | nil => simp [dictLookup] at h
  | cons p rest ih =>
    obtain ⟨k₀, v₀⟩ := p
    by_cases h₀ : k₀ = k
    · subst h₀
      simp [dictLookup] at h
      simp [dictSet, h]
    · simp [dictLookup, h₀] at h
      simp [dictSet, h₀, ih h]

/-! ### The metadata adjustment and the fix -/

theorem adjustMetadata_lookup_ct (m : List (String × String))
    (expected : String) (cd : Option String) :
    dictLookup (adjustMetadata m expected cd) "Content-Type"
      = (if (dictLookup m "Content-Type").isSome then some expected
         else none) := by
  have hne : "Content-Type" ≠ "Content-Disposition" := by decide
  cases cd with
  | none =>
    by_cases h : (dictLookup m "Content-Type").isSome
    · simp [adjustMetadata, h, dictLookup_dictSet_self]
    · simp only [Option.isSome] at h
      cases hm : dictLookup m "Content-Type" with
      | some v => simp [hm] at h
      | none => simp [adjustMetadata, hm]
  | some d =>
    by_cases h : (dictLookup m "Content-Type").isSome
    · simp [adjustMetadata, h, dictLookup_dictSet_ne _ _ _ _ hne,
        dictLookup_dictSet_self]
    · cases hm : dictLookup m "Content-Type" with
      | some v => simp [hm] at h
      | none => simp [adjustMetadata, hm, dictLookup_dictSet_ne _ _ _ _ hne]

theorem adjustMetadata_lookup_cd (m : List (String × String))
    (expected : String) (cd : Option String) :
    dictLookup (adjustMetadata m expected cd) "Content-Disposition"
      = (match cd with
         | some d => some d
         | none => dictLookup m "Content-Disposition") := by
  have hne : "Content-Disposition" ≠ "Content-Type" := by decide
  cases cd with
  | none =>
    by_cases h : (dictLookup m "Content-Type").isSome
    · simp [adjustMetadata, h, dictLookup_dictSet_ne _ _ _ _ hne]
    · simp [adjustMetadata, h]
  | some d =>
    by_cases h : (dictLookup m "Content-Type").isSome <;>
      simp [adjustMetadata, h, dictLookup_dictSet_self]

theorem adjustMetadata_lookup_other (m : List (String × String))
    (expected : String) (cd : Option String) (k : String)
    (hct : k ≠ "Content-Type") (hcd : k ≠ "Content-Disposition") :
    dictLookup (adjustMetadata m expected cd) k = dictLookup m k := by
  cases cd with
  | none =>
    by_cases h : (dictLookup m "Content-Type").isSome <;>
      simp [adjustMetadata, h, dictLookup_dictSet_ne _ _ _ _ hct]
  | some d =>
    by_cases h : (dictLookup m "Content-Type").isSome <;>
      simp [adjustMetadata, h, dictLookup_dictSet_ne _ _ _ _ hct,
        dictLookup_dictSet_ne _ _ _ _ hcd]

theorem adjustMetadata_adjustMetadata (m : List (String × String))
    (expected : String) (cd : Option String) :
    adjustMetadata (adjustMetadata m expected cd) expected none
      = adjustMetadata m expected cd := by
  have h := adjustMetadata_lookup_ct m expected cd
  show (if (dictLookup (adjustMetadata m expected cd) "Content-Type").isSome = true
        then dictSet (adjustMetadata m expected cd) "Content-Type" expected
        else adjustMetadata m expected cd) = adjustMetadata m expected cd
  by_cases hm : (dictLookup m "Content-Type").isSome = true
  · rw [if_pos hm] at h
    have hs : (dictLookup (adjustMetadata m expected cd) "Content-Type").isSome = true := by
      rw [h]; rfl
    rw [if_pos hs]
    exact dictSet_lookup_eq _ _ _ h
  · rw [if_neg hm] at h
    rw [if_neg (by rw [h]; simp)]

theorem poolInv_poolInit (keys : List String) (W : Nat) :
    poolInv keys (poolInit keys W) := by
  refine ⟨?_, ?_, ⟨[], rfl⟩⟩
  · have h1 : (keys.map some).count (none : Option String) = 0 :=
      List.count_eq_zero.mpr (by simp)
    simp [poolInit, List.count_append, h1]
  · have h2 : (keys.map some).filterMap id = keys := by
      induction keys with
      | nil => rfl
      | cons k ks ih => simp [ih]
    have h3 : (List.replicate W (none : Option String)).filterMap id = [] := by
      induction W with
      | zero => rfl
      | succ n ih => simp [List.replicate_succ, ih]
    simp [poolInit, List.filterMap_append, h2, h3]

theorem poolStep_done {W : Nat} (S : PoolState W) (w : Fin W)
    (hd : w ∈ S.doneSet) : poolStep S w = S := by
  unfold poolStep; rw [if_pos hd]

theorem poolStep_nil {W : Nat} (S : PoolState W) (w : Fin W)
    (hq : S.queue = []) : poolStep S w = S := by
  unfold poolStep; rw [hq]
  by_cases hd : w ∈ S.doneSet <;> simp [hd]

theorem poolStep_sentinel {W : Nat} (S : PoolState W) (w : Fin W)
    (rest : List (Option String)) (hd : w ∉ S.doneSet)
    (hq : S.queue = none :: rest) :
    poolStep S w = ⟨rest, insert w S.doneSet, S.processed⟩ := by
  unfold poolStep; rw [if_neg hd, hq]

theorem poolStep_key {W : Nat} (S : PoolState W) (w : Fin W) (k : String)
    (rest : List (Option String)) (hd : w ∉ S.doneSet)
    (hq : S.queue = some k :: rest) :
    poolStep S w = ⟨rest, S.doneSet, k :: S.processed⟩ := by
  unfold poolStep; rw [if_neg hd, hq]

theorem poolInv_poolStep (keys : List String) {W : Nat} (S : PoolState W)
    (w : Fin W) (h : poolInv keys S) : poolInv keys (poolStep S w) := by
  obtain ⟨h1, h2, t, ht⟩ := h
  by_cases hd : w ∈ S.doneSet
  · rw [poolStep_done S w hd]; exact ⟨h1, h2, t, ht⟩
  · rcases hq : S.queue with _ | ⟨a, rest⟩
    · rw [poolStep_nil S w hq]; exact ⟨h1, h2, t, ht⟩
    · cases a with
      | none =>
        rw [poolStep_sentinel S w rest hd hq]
        refine ⟨?_, ?_, ?_⟩
        · show rest.count none + (insert w S.doneSet).card = W
          have hc : S.queue.count none = rest.count none + 1 := by
            rw [hq]; simp
          have hcard : (insert w S.doneSet).card = S.doneSet.card + 1 :=
            Finset.card_insert_of_not_mem hd
          omega
        · show (S.processed ++ rest.filterMap id).Perm keys
          have hfm : S.queue.filterMap id = rest.filterMap id := by
            rw [hq]; simp
          rw [hfm] at h2
          exact h2
        · refine ⟨t ++ [none], ?_⟩
          show (t ++ [none]) ++ rest = keys.map some ++ List.replicate W none
          rw [List.append_assoc]
          show t ++ (none :: rest) = keys.map some ++ List.replicate W none
          rw [← hq]
          exact ht
      | some k =>
        rw [poolStep_key S w k rest hd hq]
        refine ⟨?_, ?_, ?_⟩
        · show rest.count none + S.doneSet.card = W
          have hc : S.queue.count none = rest.count none := by
            rw [hq]; simp
          omega
        · show ((k :: S.processed) ++ rest.filterMap id).Perm keys
          have hfm : S.queue.filterMap id = k :: rest.filterMap id := by
            rw [hq]; simp
          rw [hfm] at h2
          exact List.Perm.trans List.perm_middle.symm h2
        · refine ⟨t ++ [some k], ?_⟩
          show (t ++ [some k]) ++ rest = keys.map some ++ List.replicate W none
          rw [List.append_assoc]
          show t ++ (some k :: rest) = keys.map some ++ List.replicate W none
          rw [← hq]
          exact ht

theorem poolInv_poolRun (keys : List String) {W : Nat} (s : List (Fin W))
    (S : PoolState W) (h : poolInv keys S) : poolInv keys (poolRun s S) := by
  induction s generalizing S with
  | nil => exact h
  | cons w s ih => exact ih _ (poolInv_poolStep keys S w h)

theorem none_mem_of_queue_suffix (keys : List String) {W : Nat}
    (q : List (Option String)) (hW : 1 ≤ W)
    (hsuf : ∃ t, t ++ q = keys.map some ++ List.replicate W none)
    (hq : q ≠ []) : (none : Option String) ∈ q := by
  obtain ⟨t, ht⟩ := hsuf
  rcases List.eq_nil_or_concat q with h | ⟨q', a, rfl⟩
  · exact absurd h hq
  · obtain ⟨W', rfl⟩ : ∃ W', W = W' + 1 := ⟨W - 1, by omega⟩
    rw [List.replicate_succ'] at ht
    have heq : (t ++ q') ++ [a]
        = (keys.map some ++ List.replicate W' none) ++ [none] := by
      simpa [List.concat_eq_append] using ht
    obtain ⟨-, ha⟩ := List.append_inj' heq (by simp)
    have : a = none := by simpa using ha
    subst this
    simp [List.concat_eq_append]

theorem poolTerminal_characterize (keys : List String) {W : Nat}
    (S : PoolState W) (hW : 1 ≤ W) (hinv : poolInv keys S)
    (hterm : poolTerminal S) :
    S.queue = [] ∧ S.doneSet = Finset.univ ∧ S.processed.Perm keys := by
  obtain ⟨h1, h2, hsuf⟩ := hinv
  have hqnil : S.queue = [] := by
    rcases hterm with h | h
    · exact h
    · by_contra hne
      have hmem := none_mem_of_queue_suffix keys S.queue hW hsuf hne
      have hcard : S.doneSet.card = W := by
        rw [h, Finset.card_univ, Fintype.card_fin]
      have hz : S.queue.count none = 0 := by omega
      exact absurd hmem (List.count_eq_zero.mp hz)
  refine ⟨hqnil, ?_, ?_⟩
  · rw [hqnil] at h1
    simp only [List.count_nil, Nat.zero_add] at h1
    exact Finset.eq_univ_of_card _ (by rw [Fintype.card_fin]; exact h1)
  · rw [hqnil] at h2
    simpa using h2

theorem pool_exists_terminal (keys : List String) {W : Nat} :
    ∀ (n : Nat) (S : PoolState W), S.queue.length ≤ n → poolInv keys S →
      ∃ s, poolTerminal (poolRun s S) := by
  intro n
  induction n with
  | zero =>
    intro S hlen _
    exact ⟨[], Or.inl (List.length_eq_zero.mp (Nat.le_zero.mp hlen))⟩
  | succ n ih =>
    intro S hlen hinv
    by_cases hterm : poolTerminal S
    · exact ⟨[], hterm⟩
    · have hq : S.queue ≠ [] := fun h => hterm (Or.inl h)
      have hds : S.doneSet ≠ Finset.univ := fun h => hterm (Or.inr h)
      obtain ⟨w, hw⟩ : ∃ w, w ∉ S.doneSet := by
        by_contra hall
        push_neg at hall
        exact hds (Finset.eq_univ_iff_forall.mpr hall)
      rcases hq2 : S.queue with _ | ⟨a, rest⟩
      · exact absurd hq2 hq
      · have hstep : (poolStep S w).queue = rest := by
          unfold poolStep; rw [if_neg hw, hq2]; cases a <;> rfl
        have hlen' : (poolStep S w).queue.length ≤ n := by
          rw [hstep]
          have : S.queue.length = rest.length + 1 := by rw [hq2]; rfl
          omega
        obtain ⟨s, hs⟩ := ih (poolStep S w) hlen' (poolInv_poolStep keys S w hinv)
        exact ⟨w :: s, hs⟩

/-! ### Per-item lemmas for the worker loop -/

theorem check_headers_item_congr (store₁ store₂ : String → Option ObjMeta)
    (guess : String → Option String) (bucket : String)
    (verbose dryrun : Bool) (k : String) (h : store₁ k = store₂ k) :
    check_headers_item store₁ guess bucket verbose dryrun k
      = check_headers_item store₂ guess bucket verbose dryrun k := by
  unfold check_headers_item
  rw [h]

theorem check_headers_item_dryrun_reports (store : String → Option ObjMeta)
    (guess : String → Option String) (bucket : String) (verbose : Bool)
    (k : String) :
    ((check_headers_item store guess bucket verbose true k).stdout
       = (check_headers_item store guess bucket verbose false k).stdout) ∧
    ((check_headers_item store guess bucket verbose true k).stderr
       = (check_headers_item store guess bucket verbose false k).stderr) ∧
    ((check_headers_item store guess bucket verbose true k).crashed
       = (check_headers_item store guess bucket verbose false k).crashed) := by
  unfold check_headers_item
  simp only [objectHandleTruthy]
  by_cases h1 : endsWithSlash k = true
  · simp [h1]
  · simp only [h1, Bool.false_eq_true, if_false, reduceIte]
    cases store k with
    | none => exact ⟨rfl, rfl, rfl⟩
    | some obj =>
      cases guess k with
      | none => exact ⟨rfl, rfl, rfl⟩
      | some expected =>
        by_cases h2 : obj.content_type = expected <;> simp [h2]

theorem check_headers_item_dryrun_effects (store : String → Option ObjMeta)
    (guess : String → Option String) (bucket : String) (verbose : Bool)
    (k : String) :
    (check_headers_item store guess bucket verbose true k).effects = [] ∨
    (check_headers_item store guess bucket verbose true k).effects
      = [Effect.headObject k] := by
  unfold check_headers_item
  simp only [objectHandleTruthy]
  by_cases h1 : endsWithSlash k = true
  · simp [h1]
  · simp only [h1, Bool.false_eq_true, if_false, reduceIte]
    cases store k with
    | none => exact Or.inr rfl
    | some obj =>
      cases guess k with
      | none => exact Or.inr rfl
      | some expected =>
        by_cases h2 : obj.content_type = expected <;> simp [h2]

theorem runEffects_dryrun (store₀ store : String → Option ObjMeta)
    (guess : String → Option String) (bucket : String) (verbose : Bool)
    (k : String) :
    runEffects store
      (check_headers_item store₀ guess bucket verbose true k).effects = store := by
  rcases check_headers_item_dryrun_effects store₀ guess bucket verbose k with h | h <;>
    rw [h] <;> rfl

theorem check_headers_item_effects_shape (store : String → Option ObjMeta)
    (guess : String → Option String) (bucket : String)
    (verbose dryrun : Bool) (k : String) :
    (check_headers_item store guess bucket verbose dryrun k).effects = [] ∨
    (check_headers_item store guess bucket verbose dryrun k).effects
      = [Effect.headObject k] ∨
    (∃ md ct, (check_headers_item store guess bucket verbose dryrun k).effects
      = [Effect.headObject k,
         Effect.copyFrom bucket k (bucket ++ "/" ++ k) "REPLACE" md ct]) := by
  unfold check_headers_item
  simp only [objectHandleTruthy]
  by_cases h1 : endsWithSlash k = true
  · simp [h1]
  · simp only [h1, Bool.false_eq_true, if_false, reduceIte]
    cases store k with
    | none => exact Or.inr (Or.inl rfl)
    | some obj =>
      cases guess k with
      | none => exact Or.inr (Or.inl rfl)
      | some expected =>
        by_cases h2 : obj.content_type = expected
        · simp [h2]
        · by_cases h3 : dryrun = true <;> simp [h2, h3]

theorem check_headers_item_effects_local (store : String → Option ObjMeta)
    (guess : String → Option String) (bucket : String)
    (verbose dryrun : Bool) (k k' : String) (h : k' ≠ k) :
    runEffects store
      (check_headers_item store guess bucket verbose dryrun k).effects k'
      = store k' := by
  rcases check_headers_item_effects_shape store guess bucket verbose dryrun k with
    hs | hs | ⟨md, ct, hs⟩ <;> rw [hs]
  · rfl
  · rfl
  · show (if k' = k then some ⟨ct, none, md⟩ else store k') = store k'
    rw [if_neg h]

/-! ### Loop-level lemmas for the dry-run invariant -/

theorem check_headers_dryrun_pure (guess : String → Option String)
    (bucket : String) (verbose : Bool) :
    ∀ (ks : List String) (store : String → Option ObjMeta),
      (check_headers guess bucket verbose true store ks).finalStore = store ∧
      ∀ e ∈ (check_headers guess bucket verbose true store ks).effects,
        e.isCopy = false := by
  intro ks
  induction ks with
  | nil =>
    intro store
    exact ⟨rfl, by intro e he; simp [check_headers] at he⟩
  | cons k ks ih =>
    intro store
    simp only [check_headers]
    rw [runEffects_dryrun]
    by_cases hcr : (check_headers_item store guess bucket verbose true k).crashed = true
    · rw [if_pos hcr]
      refine ⟨rfl, ?_⟩
      intro e he
      dsimp only at he
      rcases check_headers_item_dryrun_effects store guess bucket verbose k with h | h <;>
        rw [h] at he
      · simp at he
      · simp at he
        subst he
        rfl
    · rw [if_neg hcr]
      obtain ⟨ih1, ih2⟩ := ih store
      refine ⟨ih1, ?_⟩
      intro e he
      dsimp only at he
      rw [List.mem_append] at he
      rcases he with he | he
      · rcases check_headers_item_dryrun_effects store guess bucket verbose k with h | h <;>
          rw [h] at he
        · simp at he
        · simp at he
          subst he
          rfl
      · exact ih2 e he

theorem check_headers_dryrun_agree (guess : String → Option String)
    (bucket : String) (verbose : Bool) :
    ∀ (ks : List String) (store₁ store₂ : String → Option ObjMeta),
      ks.Nodup → (∀ k ∈ ks, store₁ k = store₂ k) →
      ((check_headers guess bucket verbose true store₁ ks).stdout
        = (check_headers guess bucket verbose false store₂ ks).stdout) ∧
      ((check_headers guess bucket verbose true store₁ ks).stderr
        = (check_headers guess bucket verbose false store₂ ks).stderr) ∧
      ((check_headers guess bucket verbose true store₁ ks).crashed
        = (check_headers guess bucket verbose false store₂ ks).crashed) := by
  intro ks
  induction ks with
  | nil =>
    intro store₁ store₂ _ _
    exact ⟨rfl, rfl, rfl⟩
  | cons k ks ih =>
    intro store₁ store₂ hnd hag
    have hk : store₁ k = store₂ k := hag k (by simp)
    have hcongr := check_headers_item_congr store₁ store₂ guess bucket verbose true k hk
    obtain ⟨hr1, hr2, hr3⟩ := check_headers_item_dryrun_reports store₂ guess bucket verbose k
    simp only [check_headers]
    rw [hcongr, runEffects_dryrun]
    by_cases hcr : (check_headers_item store₂ guess bucket verbose false k).crashed = true
    · have hcr' : (check_headers_item store₂ guess bucket verbose true k).crashed = true := by
        rw [hr3]; exact hcr
      rw [if_pos hcr, if_pos hcr']
      exact ⟨hr1, hr2, rfl⟩
    · have hcr' : ¬((check_headers_item store₂ guess bucket verbose true k).crashed = true) := by
        rw [hr3]; exact hcr
      rw [if_neg hcr, if_neg hcr']
      have hagree' : ∀ k' ∈ ks,
          store₁ k' = runEffects store₂
            (check_headers_item store₂ guess bucket verbose false k).effects k' := by
        intro k' hk'
        have hne : k' ≠ k := by
          rintro rfl
          exact (List.nodup_cons.mp hnd).1 hk'
        rw [check_headers_item_effects_local store₂ guess bucket verbose false k k' hne]
        exact hag k' (List.mem_cons_of_mem _ hk')
      obtain ⟨ih1, ih2, ih3⟩ :=
        ih store₁
          (runEffects store₂
            (check_headers_item store₂ guess bucket verbose false k).effects)
          (List.nodup_cons.mp hnd).2 hagree'
      refine ⟨?_, ?_, ?_⟩
      · dsimp only
        rw [hr1, ih1]
      · dsimp only
        rw [hr2, ih2]
      · exact ih3

/-! ### Shared shape of the fix branch -/

theorem fix_effects_eq (store : String → Option ObjMeta)
    (guess : String → Option String) (bucket : String) (verbose : Bool)
    (k : String) (obj : ObjMeta) (expected : String)
    (hobj : store k = some obj) (hdir : endsWithSlash k = false)
    (hguess : guess k = some expected)
    (hmismatch : obj.content_type ≠ expected) :
    (check_headers_item store guess bucket verbose false k).effects
      = [Effect.headObject k,
         Effect.copyFrom bucket k (bucket ++ "/" ++ k) "REPLACE"
           (adjustMetadata obj.metadata expected obj.content_disposition)
           expected] := by
  unfold check_headers_item
  simp [objectHandleTruthy, hdir, hobj, hguess, hmismatch]

/-! ### The claims -/

/-- C1: for a key with outcome Fix in a non-dry-run, the worker issues
exactly one metadata-replacing copy of the object onto itself (same bucket
and key as source and destination, directive REPLACE) whose new
content-type is the inferred expected type and whose metadata map is the
fetched map with an existing "Content-Type" entry overwritten by the
expected type and the object's content-disposition, when present, copied
in under "Content-Disposition". -/
theorem fix_issues_single_replace_copy (store : String → Option ObjMeta)
    (guess : String → Option String) (bucket : String) (verbose : Bool)
    (k : String) (obj : ObjMeta) (expected : String)
    (hobj : store k = some obj) (hdir : endsWithSlash k = false)
    (hguess : guess k = some expected)
    (hmismatch : obj.content_type ≠ expected) :
    (check_headers_item store guess bucket verbose false k).effects
      = [Effect.headObject k,
         Effect.copyFrom bucket k (bucket ++ "/" ++ k) "REPLACE"
           (adjustMetadata obj.metadata expected obj.content_disposition)
           expected] ∧
    (check_headers_item store guess bucket verbose false k).effects.filter
        Effect.isCopy
      = [Effect.copyFrom bucket k (bucket ++ "/" ++ k) "REPLACE"
           (adjustMetadata obj.metadata expected obj.content_disposition)
           expected] ∧
    dictLookup (adjustMetadata obj.metadata expected obj.content_disposition)
        "Content-Type"
      = (if (dictLookup obj.metadata "Content-Type").isSome then some expected
         else none) ∧
    dictLookup (adjustMetadata obj.metadata expected obj.content_disposition)
        "Content-Disposition"
      = (match obj.content_disposition with
         | some d => some d
         | none => dictLookup obj.metadata "Content-Disposition") := by
  refine ⟨fix_effects_eq store guess bucket verbose k obj expected
            hobj hdir hguess hmismatch, ?_,
          adjustMetadata_lookup_ct obj.metadata expected obj.content_disposition,
          adjustMetadata_lookup_cd obj.metadata expected obj.content_disposition⟩
  rw [fix_effects_eq store guess bucket verbose k obj expected
        hobj hdir hguess hmismatch]
  rfl

/-- C2: with the dry-run flag set the worker issues no mutating call, the
store is unchanged after the whole run, and the stdout/stderr report
streams are exactly those of a non-dry-run over the same store (given that
the candidate keys are deduplicated, as the enumeration guarantees). -/
theorem dryrun_no_mutation (guess : String → Option String) (bucket : String)
    (verbose : Bool) (store : String → Option ObjMeta) (ks : List String)
    (hnd : ks.Nodup) :
    ((check_headers guess bucket verbose true store ks).effects.all
        fun e => !e.isCopy) = true ∧
    (check_headers guess bucket verbose true store ks).finalStore = store ∧
    (check_headers guess bucket verbose true store ks).stdout
      = (check_headers guess bucket verbose false store ks).stdout ∧
    (check_headers guess bucket verbose true store ks).stderr
      = (check_headers guess bucket verbose false store ks).stderr := by
  obtain ⟨h1, h2⟩ := check_headers_dryrun_pure guess bucket verbose ks store
  obtain ⟨h3, h4, -⟩ := check_headers_dryrun_agree guess bucket verbose ks
    store store hnd (fun _ _ => rfl)
  refine ⟨?_, h1, h3, h4⟩
  rw [List.all_eq_true]
  intro e he
  rw [h2 e he]
  rfl

/-- C3: the candidate set is the deduplicated union over the configured
prefixes of the keys listed under each prefix; a key matching several
prefixes appears only once. -/
theorem find_matching_files_dedup_union (bucketKeys prefixes : List String) :
    find_matching_files bucketKeys prefixes
      = prefixes.foldr
          (fun p acc =>
            (bucketKeys.filter fun k => p.isPrefixOf k).toFinset ∪ acc)
          ∅ ∧
    (∀ k, k ∈ find_matching_files bucketKeys prefixes ↔
       ∃ p ∈ prefixes, p.isPrefixOf k ∧ k ∈ bucketKeys) ∧
    (find_matching_files bucketKeys prefixes).toList.Nodup := by
  refine ⟨?_, ?_, Finset.nodup_toList _⟩
  · induction prefixes with
    | nil => rfl
    | cons p ps ih =>
      unfold find_matching_files at ih ⊢
      simp only [List.flatMap_cons, List.toFinset_append, List.foldr_cons, ih]
  · intro k
    unfold find_matching_files
    simp only [List.mem_toFinset, List.mem_flatMap, List.mem_filter]
    constructor
    · rintro ⟨p, hp, hk, hpre⟩
      exact ⟨p, hp, hpre, hk⟩
    · rintro ⟨p, hp, hpre, hk⟩
      exact ⟨p, hp, hk, hpre⟩

/-- C4: a dequeued key ending in the path separator is skipped silently:
no remote call (in particular no metadata fetch and no rewrite), no report
on either stream, and the worker continues (does not crash). -/
theorem directory_marker_skipped (store : String → Option ObjMeta)
    (guess : String → Option String) (bucket : String)
    (verbose dryrun : Bool) (k : String) (hdir : endsWithSlash k = true) :
    check_headers_item store guess bucket verbose dryrun k
      = ⟨[], [], [], false⟩ := by
  unfold check_headers_item
  simp [objectHandleTruthy, hdir]

/-- C5: a dequeued key whose name yields no guessable content type gets an
inference-failure report on the error stream, no rewrite, and the worker
continues with the next item. -/
theorem inference_failure_no_fix (store : String → Option ObjMeta)
    (guess : String → Option String) (bucket : String)
    (verbose dryrun : Bool) (k : String) (obj : ObjMeta)
    (hobj : store k = some obj) (hdir : endsWithSlash k = false)
    (hguess : guess k = none) :
    check_headers_item store guess bucket verbose dryrun k
      = ⟨[], [Report.couldNotGuess k], [Effect.headObject k], false⟩ := by
  unfold check_headers_item
  simp [objectHandleTruthy, hdir, hobj, hguess]

/-- C6: code-bug exhibit.  The `if not key:` lookup guard is dead code
(the boto3 handle is always truthy), so a key whose object cannot be
resolved produces no lookup-failure report; instead the metadata read
raises an uncaught exception and the worker crashes.  First conjunct: the
concrete behaviour at a missing key.  Second conjunct: no execution path
ever emits the could-not-lookup report. -/
theorem lookup_failure_kills_worker :
    (check_headers_item (fun _ => none) (fun _ => some "text/plain")
        "bkt" false false "missing.png"
      = ⟨[], [], [Effect.headObject "missing.png"], true⟩) ∧
    ∀ (store : String → Option ObjMeta) (guess : String → Option String)
      (bucket : String) (verbose dryrun : Bool) (k : String),
      Report.couldNotLookup k
        ∉ (check_headers_item store guess bucket verbose dryrun k).stderr := by
  refine ⟨by decide, ?_⟩
  intro store guess bucket verbose dryrun k
  unfold check_headers_item
  simp only [objectHandleTruthy]
  by_cases h1 : endsWithSlash k = true
  · simp [h1]
  · simp only [h1, Bool.false_eq_true, if_false, reduceIte]
    cases store k with
    | none => simp
    | some obj =>
      cases guess k with
      | none => simp
      | some expected =>
        by_cases h2 : obj.content_type = expected
        · simp [h2]
        · by_cases h3 : dryrun = true <;> simp [h2, h3]

/-- C7: the fix is idempotent: replaying the metadata-replacing copy with
the same expected type reproduces exactly the state left by the first
copy; and the copy effect applied to the store at the fixed key yields
precisely that state. -/
theorem fix_idempotent (obj : ObjMeta) (expected : String) :
    applyFix (applyFix obj expected) expected = applyFix obj expected ∧
    ∀ (store : String → Option ObjMeta) (bucket src k : String),
      applyEffect store
        (Effect.copyFrom bucket k src "REPLACE"
          (adjustMetadata obj.metadata expected obj.content_disposition)
          expected) k
        = some (applyFix obj expected) := by
  constructor
  · unfold applyFix
    rw [adjustMetadata_adjustMetadata]
  · intro store bucket src k
    simp [applyEffect, applyFix]

/-- C8: code-bug exhibit.  The blocking dequeue is not bounded: the call
`queue.get(BLOCK_TIME)` binds `BLOCK_TIME` to the `block` parameter of
`Queue.get(block=True, timeout=None)`, so the effective timeout stays
`none` (wait forever) instead of the intended 3600-second ceiling. -/
theorem queue_get_wait_unbounded :
    check_headers_wait_ceiling = none ∧ BLOCK_TIME = 3600 := by
  constructor
  · rfl
  · rfl

/-- C9: the coordinator enqueues the candidate keys and then exactly `W`
sentinels; for `W ≥ 1` workers a completed drain exists, and in any
completed drain every worker has received its sentinel (terminated) and
the keys dequeued across all workers are exactly the candidate keys, each
exactly once. -/
theorem worker_pool_exactly_once (keys : List String) (W : Nat)
    (hW : 1 ≤ W) (hnd : keys.Nodup) (s : List (Fin W))
    (hterm : poolTerminal (poolRun s (poolInit keys W))) :
    (poolInit keys W).queue = keys.map some ++ List.replicate W none ∧
    (∃ s' : List (Fin W), poolTerminal (poolRun s' (poolInit keys W))) ∧
    (poolRun s (poolInit keys W)).doneSet = Finset.univ ∧
    (poolRun s (poolInit keys W)).processed.Perm keys ∧
    ∀ k ∈ keys, (poolRun s (poolInit keys W)).processed.count k = 1 := by
  have hinv := poolInv_poolRun keys s (poolInit keys W) (poolInv_poolInit keys W)
  obtain ⟨-, hdone, hperm⟩ :=
    poolTerminal_characterize keys (poolRun s (poolInit keys W)) hW hinv hterm
  refine ⟨rfl, ⟨s, hterm⟩, hdone, hperm, ?_⟩
  intro k hk
  rw [List.perm_iff_count.mp hperm k]
  exact List.count_eq_one_of_mem hnd hk

/-- C10: the metadata map handed to the metadata-replacing copy agrees
with the fetched map on every key other than "Content-Type" and
"Content-Disposition"; when the fetched map has no "Content-Type" entry
none is added, and when the object has no content-disposition no
"Content-Disposition" entry is added. -/
theorem fix_metadata_frame (store : String → Option ObjMeta)
    (guess : String → Option String) (bucket : String) (verbose : Bool)
    (k : String) (obj : ObjMeta) (expected : String)
    (hobj : store k = some obj) (hdir : endsWithSlash k = false)
    (hguess : guess k = some expected)
    (hmismatch : obj.content_type ≠ expected) :
    (check_headers_item store guess bucket verbose false k).effects
      = [Effect.headObject k,
         Effect.copyFrom bucket k (bucket ++ "/" ++ k) "REPLACE"
           (adjustMetadata obj.metadata expected obj.content_disposition)
           expected] ∧
    (∀ k', k' ≠ "Content-Type" → k' ≠ "Content-Disposition" →
       dictLookup
           (adjustMetadata obj.metadata expected obj.content_disposition) k'
         = dictLookup obj.metadata k') ∧
    (dictLookup obj.metadata "Content-Type" = none →
       dictLookup
           (adjustMetadata obj.metadata expected obj.content_disposition)
           "Content-Type"
         = none) ∧
    (obj.content_disposition = none →
       dictLookup
           (adjustMetadata obj.metadata expected obj.content_disposition)
           "Content-Disposition"
         = dictLookup obj.metadata "Content-Disposition") := by
  refine ⟨fix_effects_eq store guess bucket verbose k obj expected
            hobj hdir hguess hmismatch,
          fun k' h1 h2 =>
            adjustMetadata_lookup_other obj.metadata expected
              obj.content_disposition k' h1 h2, ?_, ?_⟩
  · intro h
    rw [adjustMetadata_lookup_ct, h]
    rfl
  · intro h
    rw [adjustMetadata_lookup_cd, h]

/-! ### Concrete sample inputs used by the witnesses -/

/-- A sample object whose metadata map has an explicit "Content-Type"
entry and an unrelated entry, with a content disposition set. -/
def sampleObj : ObjMeta :=
  ⟨"text/plain", some "inline",
   [("Content-Type", "text/plain"), ("x-amz-meta-a", "b")]⟩

/-- A sample object with no "Content-Type" metadata entry and no content
disposition. -/
def sampleObj2 : ObjMeta := ⟨"text/plain", none, [("x-amz-meta-a", "b")]⟩

def sampleStore : String → Option ObjMeta := fun _ => some sampleObj

def sampleStore2 : String → Option ObjMeta := fun _ => some sampleObj2

def sampleGuess : String → Option String := fun _ => some "image/png"

def sampleGuessCss : String → Option String := fun _ => some "text/css"

def sampleGuessNone : String → Option String := fun _ => none

/-! ### Witnesses -/

/-- C1 witness at a concrete mismatching object. -/
theorem fix_issues_single_replace_copy_witness :
    sampleStore "a.png" = some sampleObj ∧
    endsWithSlash "a.png" = false ∧
    sampleGuess "a.png" = some "image/png" ∧
    sampleObj.content_type ≠ "image/png" ∧
    ((check_headers_item sampleStore sampleGuess "bkt" false false
        "a.png").effects
      = [Effect.headObject "a.png",
         Effect.copyFrom "bkt" "a.png" ("bkt" ++ "/" ++ "a.png") "REPLACE"
           (adjustMetadata sampleObj.metadata "image/png"
             sampleObj.content_disposition)
           "image/png"] ∧
     (check_headers_item sampleStore sampleGuess "bkt" false false
        "a.png").effects.filter Effect.isCopy
      = [Effect.copyFrom "bkt" "a.png" ("bkt" ++ "/" ++ "a.png") "REPLACE"
           (adjustMetadata sampleObj.metadata "image/png"
             sampleObj.content_disposition)
           "image/png"] ∧
     dictLookup (adjustMetadata sampleObj.metadata "image/png"
         sampleObj.content_disposition) "Content-Type"
      = (if (dictLookup sampleObj.metadata "Content-Type").isSome then
           some "image/png"
         else none) ∧
     dictLookup (adjustMetadata sampleObj.metadata "image/png"
         sampleObj.content_disposition) "Content-Disposition"
      = (match sampleObj.content_disposition with
         | some d => some d
         | none => dictLookup sampleObj.metadata "Content-Disposition")) :=
  ⟨rfl, by decide, rfl, by decide,
   fix_issues_single_replace_copy sampleStore sampleGuess "bkt" false
     "a.png" sampleObj "image/png" rfl (by decide) rfl (by decide)⟩

/-- C2 witness on a two-key dry run. -/
theorem dryrun_no_mutation_witness :
    List.Nodup ["a.png", "b.css"] ∧
    (((check_headers sampleGuess "bkt" false true sampleStore
          ["a.png", "b.css"]).effects.all fun e => !e.isCopy) = true ∧
     (check_headers sampleGuess "bkt" false true sampleStore
        ["a.png", "b.css"]).finalStore = sampleStore ∧
     (check_headers sampleGuess "bkt" false true sampleStore
        ["a.png", "b.css"]).stdout
      = (check_headers sampleGuess "bkt" false false sampleStore
          ["a.png", "b.css"]).stdout ∧
     (check_headers sampleGuess "bkt" false true sampleStore
        ["a.png", "b.css"]).stderr
      = (check_headers sampleGuess "bkt" false false sampleStore
          ["a.png", "b.css"]).stderr) :=
  ⟨by decide,
   dryrun_no_mutation sampleGuess "bkt" false sampleStore
     ["a.png", "b.css"] (by decide)⟩

/-- C4 witness at a directory marker key. -/
theorem directory_marker_skipped_witness :
    endsWithSlash "dir/" = true ∧
    check_headers_item sampleStore sampleGuess "bkt" false false "dir/"
      = ⟨[], [], [], false⟩ :=
  ⟨by decide,
   directory_marker_skipped sampleStore sampleGuess "bkt" false false
     "dir/" (by decide)⟩

/-- C5 witness at a key with no guessable type. -/
theorem inference_failure_no_fix_witness :
    sampleStore "weird.unknownext" = some sampleObj ∧
    endsWithSlash "weird.unknownext" = false ∧
    sampleGuessNone "weird.unknownext" = none ∧
    check_headers_item sampleStore sampleGuessNone "bkt" false false
        "weird.unknownext"
      = ⟨[], [Report.couldNotGuess "weird.unknownext"],
         [Effect.headObject "weird.unknownext"], false⟩ :=
  ⟨rfl, by decide, rfl,
   inference_failure_no_fix sampleStore sampleGuessNone "bkt" false false
     "weird.unknownext" sampleObj rfl (by decide) rfl⟩

/-- C9 witness: one worker drains two keys and one sentinel. -/
theorem worker_pool_exactly_once_witness :
    1 ≤ 1 ∧
    List.Nodup ["a.png", "b.css"] ∧
    poolTerminal (poolRun [(0 : Fin 1), 0, 0] (poolInit ["a.png", "b.css"] 1)) ∧
    ((poolInit ["a.png", "b.css"] 1).queue
      = ["a.png", "b.css"].map some ++ List.replicate 1 none ∧
     (∃ s' : List (Fin 1),
        poolTerminal (poolRun s' (poolInit ["a.png", "b.css"] 1))) ∧
     (poolRun [(0 : Fin 1), 0, 0] (poolInit ["a.png", "b.css"] 1)).doneSet
      = Finset.univ ∧
     (poolRun [(0 : Fin 1), 0, 0]
        (poolInit ["a.png", "b.css"] 1)).processed.Perm ["a.png", "b.css"] ∧
     ∀ k ∈ ["a.png", "b.css"],
       (poolRun [(0 : Fin 1), 0, 0]
          (poolInit ["a.png", "b.css"] 1)).processed.count k = 1) :=
  ⟨by decide, by decide, by decide,
   worker_pool_exactly_once ["a.png", "b.css"] 1 (by decide) (by decide)
     [0, 0, 0] (by decide)⟩

/-- C10 witness at an object with neither a "Content-Type" metadata entry
nor a content disposition. -/
theorem fix_metadata_frame_witness :
    sampleStore2 "b.css" = some sampleObj2 ∧
    endsWithSlash "b.css" = false ∧
    sampleGuessCss "b.css" = some "text/css" ∧
    sampleObj2.content_type ≠ "text/css" ∧
    ((check_headers_item sampleStore2 sampleGuessCss "bkt" false false
        "b.css").effects
      = [Effect.headObject "b.css",
         Effect.copyFrom "bkt" "b.css" ("bkt" ++ "/" ++ "b.css") "REPLACE"
           (adjustMetadata sampleObj2.metadata "text/css"
             sampleObj2.content_disposition)
           "text/css"] ∧
     (∀ k', k' ≠ "Content-Type" → k' ≠ "Content-Disposition" →
        dictLookup (adjustMetadata sampleObj2.metadata "text/css"
            sampleObj2.content_disposition) k'
          = dictLookup sampleObj2.metadata k') ∧
     (dictLookup sampleObj2.metadata "Content-Type" = none →
        dictLookup (adjustMetadata sampleObj2.metadata "text/css"
            sampleObj2.content_disposition) "Content-Type"
          = none) ∧
     (sampleObj2.content_disposition = none →
        dictLookup (adjustMetadata sampleObj2.metadata "text/css"
            sampleObj2.content_disposition) "Content-Disposition"
          = dictLookup sampleObj2.metadata "Content-Disposition")) :=
  ⟨rfl, by decide, rfl, by decide,
   fix_metadata_frame sampleStore2 sampleGuessCss "bkt" false "b.css"
     sampleObj2 "text/css" rfl (by decide) rfl (by decide)⟩
